import Mathlib

/-!
Shallow embedding of the hbank-api repository pieces that the claims touch:
the `services` authentication package (email confirmation, login, two-factor
activation and verification), the user `DeleteUser` handler with its 2FA
token check, and the `GroupStore` membership / transaction-log operations.
The persistent store (a relational database keyed by unique columns) is
modelled as functions from keys to optional records; record updates are
explicit functional updates.
-/

namespace HBank

/-- Mirrors `emailCodeLifetime = time.Minute.Milliseconds() * 5`. -/
def emailCodeLifetime : Int := 60 * 1000 * 5

/-- Mirrors `confirmEmailTimeout = time.Minute.Milliseconds() * 2`. -/
def confirmEmailTimeout : Int := 60 * 1000 * 2

/-- Mirrors `loginTokenLifetime = time.Minute.Milliseconds() * 5`. -/
def loginTokenLifetime : Int := 60 * 1000 * 5

/-- Model of the external bcrypt primitive `bcrypt.GenerateFromPassword`:
an opaque-to-callers deterministic one-way function; only the boolean
outcome of comparison matters to the embedded code. -/
def bcryptHash (password : String) : String := "bcrypt$2a$10$" ++ password

/-- Model of `bcrypt.CompareHashAndPassword(hash, password) == nil`. -/
def bcryptCheck (hash password : String) : Bool := hash = bcryptHash password

/-- Mirrors `models.EmailCode`: a stored confirmation code with an absolute
expiration timestamp in Unix milliseconds.  The `code` field holds exactly
what `SendConfirmEmail` wrote into it. -/
structure EmailCode where
  code : String
  expirationTime : Int
deriving Repr, DecidableEq

/-- Mirrors `models.LoginToken` (fields used by `Login`). -/
structure LoginToken where
  code : String
  expirationTime : Int
deriving Repr, DecidableEq

/-- Mirrors the `services`-side `models.User` (fields the embedded
operations read or write). -/
structure SUser where
  name : String
  email : String
  passwordHash : String
  emailConfirmed : Bool
  twoFaOTPEnabled : Bool
  otpSecret : String
  otpQrCode : List Nat
  emailCode : Option EmailCode
  loginTokens : List LoginToken
deriving Repr, DecidableEq

/-- The database state seen by the `services` package: users keyed by their
unique `email` column, and the `ConfirmEmailLastSent` table keyed by its
unique `email` column. -/
structure ServiceState where
  users : String → Option SUser
  lastSent : String → Option Int

/-- `db.Updates` of a user row looked up by unique email. -/
def ServiceState.setUser (st : ServiceState) (email : String) (u : SUser) : ServiceState :=
  { st with users := fun e => if e = email then some u else st.users e }

/-- `db.Create` / `db.Updates` of the `ConfirmEmailLastSent` row for an email. -/
def ServiceState.setLastSent (st : ServiceState) (email : String) (t : Int) : ServiceState :=
  { st with lastSent := fun e => if e = email then some t else st.lastSent e }

/-- Errors returned by the `services` package (`ErrTimeout`,
`ErrNotFound`, `ErrEmailAlreadyConfirmed`, `ErrInvalidCredentials`). -/
inductive AuthError
  | timeout
  | notFound
  | emailAlreadyConfirmed
  | invalidCredentials
deriving Repr, DecidableEq

/-- The part of `SendConfirmEmail` after the rate-limit gate: look up the
user (joined with its email code) by email, fail with `ErrNotFound` when
absent, fail with `ErrEmailAlreadyConfirmed` when confirmed, else replace
the outstanding code with a fresh one expiring `emailCodeLifetime` from
now.  `freshCode` stands for the value `generateRandomString(6)` returned;
the stored record holds that value directly.  Email dispatch is
fire-and-forget and does not touch the store. -/
def sendConfirmEmailLookup (st : ServiceState) (now : Int) (email freshCode : String) :
    Except AuthError Unit × ServiceState :=
  match st.users email with
  | none => (Except.error AuthError.notFound, st)
  | some u =>
    if u.emailConfirmed then
      (Except.error AuthError.emailAlreadyConfirmed, st)
    else
      let fresh : EmailCode := { code := freshCode, expirationTime := now + emailCodeLifetime }
      let u' := { u with emailCode := some fresh }
      (Except.ok (), st.setUser email u')

/-- Mirrors `SendConfirmEmail(ctx, email)`: first consult the
`ConfirmEmailLastSent` row for the email — create it (recording `now`) when
absent, fail with `ErrTimeout` when the previous send is less than
`confirmEmailTimeout` old, otherwise advance it to `now`; only then look up
the user and store a fresh code. -/
def SendConfirmEmail (st : ServiceState) (now : Int) (email freshCode : String) :
    Except AuthError Unit × ServiceState :=
  match st.lastSent email with
  | none =>
    sendConfirmEmailLookup (st.setLastSent email now) now email freshCode
  | some t =>
    if now - t < confirmEmailTimeout then
      (Except.error AuthError.timeout, st)
    else
      sendConfirmEmailLookup (st.setLastSent email now) now email freshCode

/-- Mirrors `VerifyConfirmEmailCode(ctx, email, code)`.  The gorm join
yields the zero-valued `EmailCode` struct when no code row exists, hence
the `getD` default.  On a value match the code row is deleted in every
case, and the confirmed flag is set only when the code is unexpired. -/
def VerifyConfirmEmailCode (st : ServiceState) (now : Int) (email code : String) :
    Bool × ServiceState :=
  match st.users email with
  | none => (false, st)
  | some u =>
    let stored := u.emailCode.getD { code := "", expirationTime := 0 }
    if stored.code = code then
      let success := decide (stored.expirationTime > now)
      let u' := { u with
        emailConfirmed := if success then true else u.emailConfirmed,
        emailCode := none }
      (success, st.setUser email u')
    else
      (false, st)

/-- Mirrors `Login(ctx, email, password)`: unknown email and wrong password
both fail with `ErrInvalidCredentials`; on success a login token holding
the generated string itself and expiring `loginTokenLifetime` from now is
appended to the user, and the same string is returned.  `freshCode` stands
for the first output of `generateRandomString(64)` accepted by the
uniqueness retry loop. -/
def Login (st : ServiceState) (now : Int) (email password freshCode : String) :
    Except AuthError String × ServiceState :=
  match st.users email with
  | none => (Except.error AuthError.invalidCredentials, st)
  | some u =>
    if bcryptCheck u.passwordHash password then
      let token : LoginToken := { code := freshCode, expirationTime := now + loginTokenLifetime }
      let u' := { u with loginTokens := u.loginTokens ++ [token] }
      (Except.ok freshCode, st.setUser email u')
    else
      (Except.error AuthError.invalidCredentials, st)

/-- Mirrors `Activate2FAOTP(ctx, email, password)`: unknown email and wrong
password both fail with `ErrInvalidCredentials`; when 2FA is not yet
enabled a fresh TOTP secret and QR image are generated and persisted on
the user row (columns `two_fa_otp_enabled, otp_secret, otp_qr_code`, the
enabled flag keeping its current false value) and the QR image returned;
when 2FA is already enabled the stored QR image is returned and nothing is
written.  `secret` and `qr` stand for the outputs of the external
`totp.Generate` / `key.Image` primitives. -/
def Activate2FAOTP (st : ServiceState) (email password secret : String) (qr : List Nat) :
    Except AuthError (List Nat) × ServiceState :=
  match st.users email with
  | none => (Except.error AuthError.invalidCredentials, st)
  | some u =>
    if bcryptCheck u.passwordHash password then
      if u.twoFaOTPEnabled then
        (Except.ok u.otpQrCode, st)
      else
        let u' := { u with otpSecret := secret, otpQrCode := qr }
        (Except.ok qr, st.setUser email u')
    else
      (Except.error AuthError.invalidCredentials, st)

/-- Mirrors `VerifyOTPCode(ctx, email, code)`: validates the presented
code against the OTP secret stored on the user row and, on success, sets
the two-factor-enabled flag.  `totpValid` stands for the external
`totp.Validate` primitive. -/
def VerifyOTPCode (st : ServiceState) (totpValid : String → String → Bool)
    (email code : String) : Bool × ServiceState :=
  match st.users email with
  | none => (false, st)
  | some u =>
    if totpValid code u.otpSecret then
      (true, st.setUser email { u with twoFaOTPEnabled := true })
    else
      (false, st)

/-- Modelled from the spec: `services.HashToken` (implementation not under
src/) — the deterministic hash applied to presented token values before
comparison with the stored `CodeHash`; the spec says token lookup always
compares by hash.  Only determinism matters to the embedded handler code. -/
def hashToken (code : String) : String := "sha256$" ++ code

/-- Mirrors `models.TwoFAToken` (fields the `DeleteUser` handler uses):
the stored hash of the token value and an absolute expiration timestamp
in Unix seconds. -/
structure TwoFAToken where
  codeHash : String
  expirationTime : Int
deriving Repr, DecidableEq

/-- Mirrors the handlers-side `models.User` (fields the `DeleteUser`
handler reads or writes). -/
structure HUser where
  id : Nat
  passwordHash : String
  emailConfirmed : Bool
  twoFATokens : List TwoFAToken
deriving Repr, DecidableEq

/-- The user store seen by the handlers: users keyed by their unique id. -/
structure HState where
  users : Nat → Option HUser

/-- `userStore.Update` of a user row looked up by id. -/
def HState.setUser (st : HState) (id : Nat) (u : HUser) : HState :=
  { st with users := fun i => if i = id then some u else st.users i }

/-- `userStore.Delete(user)`. -/
def HState.deleteUser (st : HState) (id : Nat) : HState :=
  { st with users := fun i => if i = id then none else st.users i }

/-- Whether a stored token record matches a presented token value: its
stored hash equals the hash of the presented value. -/
def tokenMatches (code : String) (t : TwoFAToken) : Bool :=
  t.codeHash = hashToken code

/-- Modelled from the spec: `userStore.GetTwoFATokenByCode(user, code)`
(implementation not under src/) — returns the stored 2FA token of the user
whose hashed value matches the hash of the presented code, regardless of
expiration (the handler checks expiration itself afterwards). -/
def GetTwoFATokenByCode (u : HUser) (code : String) : Option TwoFAToken :=
  u.twoFATokens.find? (tokenMatches code)

/-- `userStore.DeleteTwoFAToken` of the record found by
`GetTwoFATokenByCode`: remove that stored token from the user. -/
def HUser.deleteTwoFAToken (u : HUser) (code : String) : HUser :=
  { u with twoFATokens := u.twoFATokens.eraseP (tokenMatches code) }

/-- HTTP-level outcomes of the `DeleteUser` handler that the claims
distinguish. -/
inductive DeleteUserResult
  | unauthorized
  | badRequest
  | forbiddenInvalidCredentials
  | success
deriving Repr, DecidableEq

/-- Mirrors the `DeleteUser` handler (`/v1/user/delete`): resolve the
authenticated user, verify the password, look up the presented 2FA token
by hash, delete it whenever it was found, and only then reject it when its
expiration time is in the past; on success delete the account. -/
def DeleteUser (st : HState) (now : Int) (userId : Nat) (password twoFACode : String) :
    DeleteUserResult × HState :=
  match st.users userId with
  | none => (DeleteUserResult.unauthorized, st)
  | some u =>
    if bcryptCheck u.passwordHash password then
      match GetTwoFATokenByCode u twoFACode with
      | none => (DeleteUserResult.forbiddenInvalidCredentials, st)
      | some t =>
        let st1 := st.setUser userId (u.deleteTwoFAToken twoFACode)
        if t.expirationTime < now then
          (DeleteUserResult.forbiddenInvalidCredentials, st1)
        else
          (DeleteUserResult.success, st1.deleteUser userId)
    else
      (DeleteUserResult.forbiddenInvalidCredentials, st)

/-- Mirrors `models.GroupMembership`. -/
structure GroupMembership where
  groupId : Nat
  userId : Nat
  isMember : Bool
  isAdmin : Bool
deriving Repr, DecidableEq

/-- Two's-complement wrap of an integer into the 64-bit range
[-2^63, 2^63), mirroring overflow of Go's fixed-width `int` arithmetic on
the 64-bit target. -/
def wrap64 (x : Int) : Int := (x + 2 ^ 63) % 2 ^ 64 - 2 ^ 63

/-- Whether an integer is representable as a 64-bit Go `int`. -/
def int64Representable (x : Int) : Prop := -(2 ^ 63) ≤ x ∧ x < 2 ^ 63

instance (x : Int) : Decidable (int64Representable x) :=
  inferInstanceAs (Decidable (-(2 ^ 63) ≤ x ∧ x < 2 ^ 63))

/-- Mirrors `models.TransactionLogEntry`.  UUIDs are modelled as naturals,
the zero UUID `uuid.UUID{}` as `0`.  The `amount` and balance fields hold
64-bit `int` values; every value the program writes into them is in the
64-bit range. -/
structure TransactionLogEntry where
  title : String
  description : String
  amount : Int
  groupId : Nat
  senderIsBank : Bool
  senderId : Nat
  newBalanceSender : Int
  balanceDifferenceSender : Int
  receiverIsBank : Bool
  receiverId : Nat
  newBalanceReceiver : Int
  balanceDifferenceReceiver : Int
  paymentPlanId : Nat
deriving Repr, DecidableEq

/-- Mirrors `models.PaymentPlan` (fields `RemoveMember` filters on plus
identifying data). -/
structure PaymentPlan where
  name : String
  amount : Int
  groupId : Nat
  senderIsBank : Bool
  senderId : Nat
  receiverIsBank : Bool
  receiverId : Nat
deriving Repr, DecidableEq

/-- The tables of a group as the `GroupStore` sees them: membership rows,
the transaction log in creation order (oldest first, so `created DESC`
order is the reversed list), and payment plans. -/
structure GroupState where
  memberships : List GroupMembership
  transactionLog : List TransactionLogEntry
  paymentPlans : List PaymentPlan
deriving Repr, DecidableEq

/-- The membership row for a (group, user) pair:
`db.First(&membership, "group_id = ? AND user_id = ?", ...)`. -/
def membershipKey (g u : Nat) (m : GroupMembership) : Bool :=
  m.groupId = g ∧ m.userId = u

/-- First membership row of the pair, as gorm `First` returns it. -/
def findMembership (st : GroupState) (g u : Nat) : Option GroupMembership :=
  st.memberships.find? (membershipKey g u)

/-- Replace the first element satisfying the predicate by its image under
`f` (gorm `Updates` on the row previously fetched with `First`). -/
def replaceFirst (p : α → Bool) (f : α → α) : List α → List α
  | [] => []
  | x :: xs => if p x then f x :: xs else x :: replaceFirst p f xs

/-- Mirrors `GroupStore.IsAdmin`: whether a membership row with
`is_admin = true` exists for the pair. -/
def IsAdmin (st : GroupState) (g u : Nat) : Bool :=
  st.memberships.any (fun m => membershipKey g u m && m.isAdmin)

/-- Mirrors `GroupStore.IsMember`: whether a membership row with
`is_member = true` exists for the pair. -/
def IsMember (st : GroupState) (g u : Nat) : Bool :=
  st.memberships.any (fun m => membershipKey g u m && m.isMember)

/-- Mirrors `GroupStore.RemoveMember`: fail when no membership row exists;
otherwise delete the payment plans of the user in the group, then — if the
row has `is_admin` set — keep it and clear only `is_member`, else delete
the row. -/
def RemoveMember (st : GroupState) (g u : Nat) : Option GroupState :=
  match findMembership st g u with
  | none => none
  | some m =>
    let plans := st.paymentPlans.filter
      (fun p => !(p.groupId = g && (p.senderId = u || p.receiverId = u)))
    if m.isAdmin then
      some { st with
        paymentPlans := plans,
        memberships := replaceFirst (membershipKey g u)
          (fun mm => { mm with isMember := false }) st.memberships }
    else
      some { st with
        paymentPlans := plans,
        memberships := st.memberships.eraseP (membershipKey g u) }

/-- Whether a log entry involves the user in the group:
`group_id = ? AND sender_id = ?` or `group_id = ? AND receiver_id = ?`. -/
def entryInvolves (g u : Nat) (e : TransactionLogEntry) : Bool :=
  e.groupId = g ∧ (e.senderId = u ∨ e.receiverId = u)

/-- Mirrors `GroupStore.GetLastTransactionLogEntry`: the most recent
(`created DESC` first) log entry of the group involving the user. -/
def GetLastTransactionLogEntry (st : GroupState) (g u : Nat) :
    Option TransactionLogEntry :=
  st.transactionLog.reverse.find? (entryInvolves g u)

/-- Mirrors `GroupStore.GetUserBalance`: the `NewBalance` field of the
side of the most recent involving entry on which the user stands, or 0
when there is no such entry. -/
def GetUserBalance (st : GroupState) (g u : Nat) : Int :=
  match GetLastTransactionLogEntry st g u with
  | none => 0
  | some e => if e.senderId = u then e.newBalanceSender else e.newBalanceReceiver

/-- Mirrors `GroupStore.CreateTransactionFromPaymentPlan`: compute the new
balances of the non-bank participants from their current balances, use the
zero UUID for bank participants, and append the log entry.
`GroupStore.CreateTransaction` is the special case with zero
`paymentPlanId`.  The Go arithmetic (`-amount`,
`oldBalance - amount`, `oldBalance + amount`) is on fixed-width `int` and
wraps on overflow, hence the explicit `wrap64`; `amount` itself and
`BalanceDifferenceReceiver` are stored verbatim without arithmetic. -/
def CreateTransactionFromPaymentPlan (st : GroupState) (g : Nat)
    (senderIsBank receiverIsBank : Bool) (sender receiver : Nat)
    (title description : String) (amount : Int) (paymentPlanId : Nat) : GroupState :=
  let newBalanceSender :=
    if senderIsBank then 0 else wrap64 (GetUserBalance st g sender - amount)
  let newBalanceReceiver :=
    if receiverIsBank then 0 else wrap64 (GetUserBalance st g receiver + amount)
  let senderId := if senderIsBank then 0 else sender
  let receiverId := if receiverIsBank then 0 else receiver
  let entry : TransactionLogEntry := {
    title := title
    description := description
    amount := amount
    groupId := g
    senderIsBank := senderIsBank
    senderId := senderId
    newBalanceSender := newBalanceSender
    balanceDifferenceSender := wrap64 (-amount)
    receiverIsBank := receiverIsBank
    receiverId := receiverId
    newBalanceReceiver := newBalanceReceiver
    balanceDifferenceReceiver := amount
    paymentPlanId := paymentPlanId }
  { st with transactionLog := st.transactionLog ++ [entry] }

/-! Concrete fixtures used to witness the theorems on small inputs. -/

/-- A registered, not yet confirmed user with an outstanding email code. -/
def uA : SUser :=
  { name := "Ann", email := "a@x.com", passwordHash := bcryptHash "pw1",
    emailConfirmed := false, twoFaOTPEnabled := false, otpSecret := "",
    otpQrCode := [], emailCode := some { code := "ABC123", expirationTime := 1000 },
    loginTokens := [] }

/-- A user with two-factor authentication already enabled. -/
def uB : SUser :=
  { name := "Bob", email := "b@x.com", passwordHash := bcryptHash "pw2",
    emailConfirmed := true, twoFaOTPEnabled := true, otpSecret := "S1",
    otpQrCode := [7, 7], emailCode := none, loginTokens := [] }

/-- Service store holding `uA` and `uB`, with no rate-limit markers. -/
def stA : ServiceState :=
  { users := fun e => if e = "a@x.com" then some uA else if e = "b@x.com" then some uB else none,
    lastSent := fun _ => none }

/-- An expired stored 2FA token (hash of the value `T64`). -/
def tExp : TwoFAToken := { codeHash := hashToken "T64", expirationTime := 10 }

/-- A handlers-side user holding only the expired token `tExp`. -/
def hA : HUser :=
  { id := 1, passwordHash := bcryptHash "pw1", emailConfirmed := true,
    twoFATokens := [tExp] }

/-- Handler store holding `hA`. -/
def hstA : HState := { users := fun i => if i = 1 then some hA else none }

/-- A membership row of an admin member. -/
def memA : GroupMembership := { groupId := 1, userId := 2, isMember := true, isAdmin := true }

/-- A membership row of a plain (non-admin) member. -/
def memB : GroupMembership := { groupId := 1, userId := 3, isMember := true, isAdmin := false }

/-- Group tables holding the two membership rows and an empty log. -/
def gstA : GroupState := { memberships := [memA, memB], transactionLog := [], paymentPlans := [] }

/-! Claim theorems. -/

/-- C1: for a user with an outstanding email-confirmation code,
`VerifyConfirmEmailCode` behaves in exactly three ways — on a match of an
unexpired code it sets the confirmed flag, deletes the code and returns
success; on a match of an expired code it deletes the code and returns
failure; on a non-match it leaves the state (hence the stored code) intact
and returns failure. -/
theorem C1_verify_confirm_email_code_trichotomy
    (st : ServiceState) (now : Int) (email code : String) (u : SUser) (ec : EmailCode)
    (hu : st.users email = some u) (hec : u.emailCode = some ec) :
    (ec.code = code → ec.expirationTime > now →
      VerifyConfirmEmailCode st now email code =
        (true, st.setUser email { u with emailConfirmed := true, emailCode := none })) ∧
    (ec.code = code → ec.expirationTime ≤ now →
      VerifyConfirmEmailCode st now email code =
        (false, st.setUser email { u with emailCode := none })) ∧
    (ec.code ≠ code →
      VerifyConfirmEmailCode st now email code = (false, st)) := by
  refine ⟨?_, ?_, ?_⟩
  · intro hcode hexp
    simp [VerifyConfirmEmailCode, hu, hec, hcode, decide_eq_true hexp]
  · intro hcode hexp
    simp [VerifyConfirmEmailCode, hu, hec, hcode, decide_eq_false (not_lt.2 hexp)]
  · intro hne
    simp [VerifyConfirmEmailCode, hu, hec, hne]

/-- Witness: the three hypotheses of C1 are satisfiable — verifying the
right unexpired code on the concrete store `stA` succeeds and flips the
account to confirmed. -/
theorem C1_witness :
    VerifyConfirmEmailCode stA 500 "a@x.com" "ABC123" =
      (true, stA.setUser "a@x.com" { uA with emailConfirmed := true, emailCode := none }) :=
  (C1_verify_confirm_email_code_trichotomy stA 500 "a@x.com" "ABC123" uA
    { code := "ABC123", expirationTime := 1000 } rfl rfl).1 rfl (by decide)

/-- C4: `Login` fails with the same `ErrInvalidCredentials` value whether
no account with the email exists or the account exists and the password
does not verify against the stored hash; in both cases the store is left
unchanged. -/
theorem C4_login_error_indistinguishable
    (st : ServiceState) (now : Int) (email password freshCode : String) :
    (st.users email = none →
      Login st now email password freshCode =
        (Except.error AuthError.invalidCredentials, st)) ∧
    (∀ u, st.users email = some u → bcryptCheck u.passwordHash password = false →
      Login st now email password freshCode =
        (Except.error AuthError.invalidCredentials, st)) := by
  constructor
  · intro h
    simp [Login, h]
  · intro u hu hpw
    simp [Login, hu, hpw]

/-- Witness: both failure causes of C4 are realizable on the concrete
store `stA` and produce the identical error value. -/
theorem C4_witness :
    Login stA 0 "nobody@x.com" "pw1" "TOK" = (Except.error AuthError.invalidCredentials, stA) ∧
    Login stA 0 "a@x.com" "wrong" "TOK" = (Except.error AuthError.invalidCredentials, stA) :=
  ⟨(C4_login_error_indistinguishable stA 0 "nobody@x.com" "pw1" "TOK").1 (by decide),
   (C4_login_error_indistinguishable stA 0 "a@x.com" "wrong" "TOK").2 uA rfl (by decide)⟩

/-- C8: for a user whose two-factor state is already enabled,
`Activate2FAOTP` with the correct password returns the stored enrollment
QR image and leaves the store unchanged, so a second call (even with a
different generated secret) returns the same artifact; with a wrong
password it fails with `ErrInvalidCredentials` regardless of enablement. -/
theorem C8_activate_otp_idempotent
    (st : ServiceState) (email password secret secret2 : String) (qr qr2 : List Nat)
    (u : SUser) (hu : st.users email = some u) :
    (u.twoFaOTPEnabled = true → bcryptCheck u.passwordHash password = true →
      Activate2FAOTP st email password secret qr = (Except.ok u.otpQrCode, st) ∧
      Activate2FAOTP (Activate2FAOTP st email password secret qr).2 email password secret2 qr2 =
        (Except.ok u.otpQrCode, st)) ∧
    (bcryptCheck u.passwordHash password = false →
      (Activate2FAOTP st email password secret qr).1 =
        Except.error AuthError.invalidCredentials) := by
  constructor
  · intro hen hpw
    have h1 : Activate2FAOTP st email password secret qr = (Except.ok u.otpQrCode, st) := by
      simp [Activate2FAOTP, hu, hpw, hen]
    refine ⟨h1, ?_⟩
    rw [h1]
    simp [Activate2FAOTP, hu, hpw, hen]
  · intro hpw
    simp [Activate2FAOTP, hu, hpw]

/-- Witness: on the concrete store `stA`, activating for the already
enabled user `uB` twice returns the stored QR image both times, and a
wrong password fails with invalid credentials. -/
theorem C8_witness :
    (Activate2FAOTP stA "b@x.com" "pw2" "NEW" [9] = (Except.ok uB.otpQrCode, stA) ∧
      Activate2FAOTP (Activate2FAOTP stA "b@x.com" "pw2" "NEW" [9]).2 "b@x.com" "pw2" "NEW2" [8] =
        (Except.ok uB.otpQrCode, stA)) ∧
    (Activate2FAOTP stA "b@x.com" "bad" "NEW" [9]).1 = Except.error AuthError.invalidCredentials :=
  ⟨(C8_activate_otp_idempotent stA "b@x.com" "pw2" "NEW" "NEW2" [9] [8] uB (by decide)).1
      rfl (by decide),
   (C8_activate_otp_idempotent stA "b@x.com" "bad" "NEW" "NEW2" [9] [8] uB (by decide)).2
      (by decide)⟩

/-- C2, counterexample: on the concrete store `stA`, requesting a
confirmation code with generated value `XYZ999` succeeds and the stored
record holds exactly that plaintext value — refuting "the stored value is
a hash of the generated code, never the plaintext; the plaintext is only
returned to the caller, not written to the store". -/
theorem C2_counterexample :
    (SendConfirmEmail stA 0 "a@x.com" "XYZ999").1 = Except.ok () ∧
    ((SendConfirmEmail stA 0 "a@x.com" "XYZ999").2.users "a@x.com").bind SUser.emailCode =
      some { code := "XYZ999", expirationTime := 300000 } := by
  constructor
  · simp [SendConfirmEmail, sendConfirmEmailLookup, stA, uA,
      ServiceState.setLastSent, ServiceState.setUser]
  · simp [SendConfirmEmail, sendConfirmEmailLookup, stA, uA,
      ServiceState.setLastSent, ServiceState.setUser, emailCodeLifetime]

/-- C2 amended: the email-confirmation flow and the login flow store the
generated code itself — the record written by `SendConfirmEmail` holds the
plaintext code with its absolute expiration, and `Login` appends a login
token holding the plaintext token value while returning that same value to
the caller; no hashing happens before storage. -/
theorem C2_plaintext_code_stored :
    (∀ (st : ServiceState) (now : Int) (email f : String) (u : SUser),
      st.users email = some u → u.emailConfirmed = false →
      (SendConfirmEmail st now email f).1 ≠ Except.error AuthError.timeout →
      ((SendConfirmEmail st now email f).2.users email).bind SUser.emailCode =
        some { code := f, expirationTime := now + emailCodeLifetime }) ∧
    (∀ (st : ServiceState) (now : Int) (email password f : String) (u : SUser),
      st.users email = some u → bcryptCheck u.passwordHash password = true →
      Login st now email password f =
        (Except.ok f, st.setUser email
          { u with loginTokens := u.loginTokens ++ [⟨f, now + loginTokenLifetime⟩] })) := by
  constructor
  · intro st now email f u hu hconf hrl
    have hlk : ∀ st1 : ServiceState, st1.users email = some u →
        ((sendConfirmEmailLookup st1 now email f).2.users email).bind SUser.emailCode =
          some { code := f, expirationTime := now + emailCodeLifetime } := by
      intro st1 h1
      simp [sendConfirmEmailLookup, h1, hconf, ServiceState.setUser]
    revert hrl
    simp only [SendConfirmEmail]
    cases hl : st.lastSent email with
    | none =>
      intro _
      exact hlk _ hu
    | some t =>
      dsimp only
      by_cases ht : now - t < confirmEmailTimeout
      · rw [if_pos ht]
        intro hrl
        exact absurd rfl hrl
      · rw [if_neg ht]
        intro _
        exact hlk _ hu
  · intro st now email password f u hu hpw
    simp [Login, hu, hpw]

/-- Witness for amended C2: concrete runs of both flows on `stA` store the
plaintext values `XYZ999` and `TOK64`. -/
theorem C2_witness :
    ((SendConfirmEmail stA 0 "a@x.com" "XYZ999").2.users "a@x.com").bind SUser.emailCode =
      some { code := "XYZ999", expirationTime := 0 + emailCodeLifetime } ∧
    Login stA 0 "a@x.com" "pw1" "TOK64" =
      (Except.ok "TOK64", stA.setUser "a@x.com"
        { uA with loginTokens := uA.loginTokens ++ [⟨"TOK64", 0 + loginTokenLifetime⟩] }) :=
  ⟨C2_plaintext_code_stored.1 stA 0 "a@x.com" "XYZ999" uA rfl rfl
      (by simp [SendConfirmEmail, sendConfirmEmailLookup, stA, uA, ServiceState.setLastSent]),
   C2_plaintext_code_stored.2 stA 0 "a@x.com" "pw1" "TOK64" uA rfl (by decide)⟩

/-- C3, counterexample: on the concrete store `stA`, a single
`Activate2FAOTP` call for the not-yet-enabled user `uA` with the correct
password persists the generated OTP secret on the user record while the
two-factor-enabled flag is still false — refuting "the stored OTP secret
is absent (empty) until a first successful OTP verification". -/
theorem C3_counterexample :
    ((Activate2FAOTP stA "a@x.com" "pw1" "JBSWY3DP" [1]).2.users "a@x.com").map
        SUser.otpSecret = some "JBSWY3DP" ∧
    ((Activate2FAOTP stA "a@x.com" "pw1" "JBSWY3DP" [1]).2.users "a@x.com").map
        SUser.twoFaOTPEnabled = some false := by
  constructor
  · simp [Activate2FAOTP, stA, uA, bcryptCheck, ServiceState.setUser]
  · simp [Activate2FAOTP, stA, uA, bcryptCheck, ServiceState.setUser]

/-- C3 amended: `Activate2FAOTP` on a user whose 2FA is not yet enabled
persists the generated OTP secret (and QR code) on the user record while
the two-factor-enabled flag remains false; the flag becomes true only
upon a subsequent successful `VerifyOTPCode`. -/
theorem C3_otp_secret_persisted_before_enable
    (st : ServiceState) (email password secret : String) (qr : List Nat) (u : SUser)
    (totpValid : String → String → Bool) (code : String)
    (hu : st.users email = some u) (hpw : bcryptCheck u.passwordHash password = true)
    (hen : u.twoFaOTPEnabled = false) :
    ((Activate2FAOTP st email password secret qr).2.users email).map SUser.otpSecret =
      some secret ∧
    ((Activate2FAOTP st email password secret qr).2.users email).map SUser.twoFaOTPEnabled =
      some false ∧
    (totpValid code secret = true →
      ((VerifyOTPCode (Activate2FAOTP st email password secret qr).2 totpValid
          email code).2.users email).map SUser.twoFaOTPEnabled = some true) := by
  have h1 : (Activate2FAOTP st email password secret qr).2 =
      st.setUser email { u with otpSecret := secret, otpQrCode := qr } := by
    simp [Activate2FAOTP, hu, hpw, hen]
  refine ⟨?_, ?_, ?_⟩
  · rw [h1]; simp [ServiceState.setUser, hen]
  · rw [h1]; simp [ServiceState.setUser, hen]
  · intro hv
    rw [h1]
    simp [VerifyOTPCode, ServiceState.setUser, hv]

/-- Witness for amended C3: the concrete activation of `uA` stores the
secret with the flag still false, and a subsequent successful OTP
verification flips the flag. -/
theorem C3_witness :
    ((Activate2FAOTP stA "a@x.com" "pw1" "JBSWY3DP" [1]).2.users "a@x.com").map
        SUser.otpSecret = some "JBSWY3DP" ∧
    ((Activate2FAOTP stA "a@x.com" "pw1" "JBSWY3DP" [1]).2.users "a@x.com").map
        SUser.twoFaOTPEnabled = some false ∧
    ((VerifyOTPCode (Activate2FAOTP stA "a@x.com" "pw1" "JBSWY3DP" [1]).2
        (fun c s => c = "123456" && s = "JBSWY3DP") "a@x.com" "123456").2.users
        "a@x.com").map SUser.twoFaOTPEnabled = some true := by
  have h := C3_otp_secret_persisted_before_enable stA "a@x.com" "pw1" "JBSWY3DP" [1] uA
    (fun c s => c = "123456" && s = "JBSWY3DP") "123456" rfl (by decide) rfl
  exact ⟨h.1, h.2.1, h.2.2 (by decide)⟩

/-- The post-rate-limit part of `SendConfirmEmail` never touches the
`ConfirmEmailLastSent` table. -/
theorem sendConfirmEmailLookup_lastSent (st : ServiceState) (now : Int) (email f : String) :
    (sendConfirmEmailLookup st now email f).2.lastSent = st.lastSent := by
  simp only [sendConfirmEmailLookup]
  cases h : st.users email with
  | none => rfl
  | some u =>
    by_cases hc : u.emailConfirmed <;> simp [hc, ServiceState.setUser]

/-- The post-rate-limit part of `SendConfirmEmail` never reports the
rate-limit error. -/
theorem sendConfirmEmailLookup_ne_timeout (st : ServiceState) (now : Int) (email f : String) :
    (sendConfirmEmailLookup st now email f).1 ≠ Except.error AuthError.timeout := by
  simp only [sendConfirmEmailLookup]
  cases h : st.users email with
  | none => simp
  | some u =>
    by_cases hc : u.emailConfirmed <;> simp [hc]

/-- Whenever `SendConfirmEmail` does not fail with the rate-limit error,
it records `now` as the last-sent time of the email — on the success path
and on every other failure path alike. -/
theorem sendConfirmEmail_marker (st : ServiceState) (now : Int) (email f : String)
    (h : (SendConfirmEmail st now email f).1 ≠ Except.error AuthError.timeout) :
    (SendConfirmEmail st now email f).2.lastSent email = some now := by
  revert h
  simp only [SendConfirmEmail]
  cases hl : st.lastSent email with
  | none =>
    intro _
    rw [sendConfirmEmailLookup_lastSent]
    simp [ServiceState.setLastSent]
  | some t =>
    dsimp only
    by_cases ht : now - t < confirmEmailTimeout
    · rw [if_pos ht]
      intro h
      exact absurd rfl h
    · rw [if_neg ht]
      intro _
      rw [sendConfirmEmailLookup_lastSent]
      simp [ServiceState.setLastSent]

/-- C6: when a confirmation code request for an email was not itself
rate-limited, a second request strictly less than two minutes later fails
with the rate-limit error and leaves the store unchanged (no new code is
stored), while a second request at least two minutes later is not
rate-limited. -/
theorem C6_confirm_email_rate_limited
    (st : ServiceState) (now1 now2 : Int) (email f1 f2 : String)
    (h1 : (SendConfirmEmail st now1 email f1).1 ≠ Except.error AuthError.timeout) :
    (now2 - now1 < confirmEmailTimeout →
      SendConfirmEmail (SendConfirmEmail st now1 email f1).2 now2 email f2 =
        (Except.error AuthError.timeout, (SendConfirmEmail st now1 email f1).2)) ∧
    (confirmEmailTimeout ≤ now2 - now1 →
      (SendConfirmEmail (SendConfirmEmail st now1 email f1).2 now2 email f2).1 ≠
        Except.error AuthError.timeout) := by
  set st1 := (SendConfirmEmail st now1 email f1).2 with hst1
  have hm : st1.lastSent email = some now1 := sendConfirmEmail_marker st now1 email f1 h1
  constructor
  · intro hlt
    simp only [SendConfirmEmail, hm]
    rw [if_pos hlt]
  · intro hge
    simp only [SendConfirmEmail, hm]
    rw [if_neg (not_lt.2 hge)]
    exact sendConfirmEmailLookup_ne_timeout _ _ _ _

/-- Witness: on the concrete store `stA` the first request at time 0
succeeds, a second request at time 119999 is rate-limited with the store
unchanged, and a second request at time 120000 is not rate-limited. -/
theorem C6_witness :
    SendConfirmEmail (SendConfirmEmail stA 0 "a@x.com" "AAA111").2 119999 "a@x.com" "BBB222" =
      (Except.error AuthError.timeout, (SendConfirmEmail stA 0 "a@x.com" "AAA111").2) ∧
    (SendConfirmEmail (SendConfirmEmail stA 0 "a@x.com" "AAA111").2 120000 "a@x.com" "BBB222").1 ≠
      Except.error AuthError.timeout := by
  have h := C6_confirm_email_rate_limited stA 0 119999 "a@x.com" "AAA111" "BBB222"
    (by simp [SendConfirmEmail, sendConfirmEmailLookup, stA, uA, ServiceState.setLastSent])
  have h2 := C6_confirm_email_rate_limited stA 0 120000 "a@x.com" "AAA111" "BBB222"
    (by simp [SendConfirmEmail, sendConfirmEmailLookup, stA, uA, ServiceState.setLastSent])
  exact ⟨h.1 (by decide), h2.2 (by decide)⟩

/-- C7: for an email with no matching account whose rate-limit window has
passed (or that has no marker yet), `SendConfirmEmail` fails with
`ErrNotFound` but still advances the last-sent marker to `now` exactly as
the success path does, so an immediately repeated request within the
two-minute window fails with the rate-limit error rather than
`ErrNotFound`. -/
theorem C7_not_found_still_rate_limits
    (st : ServiceState) (now now2 : Int) (email f1 f2 : String)
    (hu : st.users email = none)
    (hrl : ∀ t, st.lastSent email = some t → confirmEmailTimeout ≤ now - t)
    (hnow2 : now2 - now < confirmEmailTimeout) :
    SendConfirmEmail st now email f1 =
      (Except.error AuthError.notFound, st.setLastSent email now) ∧
    SendConfirmEmail (st.setLastSent email now) now2 email f2 =
      (Except.error AuthError.timeout, st.setLastSent email now) := by
  constructor
  · simp only [SendConfirmEmail]
    cases hl : st.lastSent email with
    | none =>
      simp [sendConfirmEmailLookup, ServiceState.setLastSent, hu]
    | some t =>
      dsimp only
      rw [if_neg (not_lt.2 (hrl t hl))]
      simp [sendConfirmEmailLookup, ServiceState.setLastSent, hu]
  · simp only [SendConfirmEmail, ServiceState.setLastSent]
    simp [hnow2]

/-- Witness: a request for an unknown email on the concrete store `stA`
returns not-found yet records the marker, and the immediate repeat is
rate-limited. -/
theorem C7_witness :
    SendConfirmEmail stA 0 "ghost@x.com" "AAA111" =
      (Except.error AuthError.notFound, stA.setLastSent "ghost@x.com" 0) ∧
    SendConfirmEmail (stA.setLastSent "ghost@x.com" 0) 5000 "ghost@x.com" "BBB222" =
      (Except.error AuthError.timeout, stA.setLastSent "ghost@x.com" 0) :=
  C7_not_found_still_rate_limits stA 0 5000 "ghost@x.com" "AAA111" "BBB222"
    (by decide) (fun t ht => by simp [stA] at ht) (by decide)

/-- A list in which no element satisfies the predicate has no find result. -/
theorem find_eq_none_of_countP_zero {α : Type} (p : α → Bool) :
    ∀ l : List α, l.countP p = 0 → l.find? p = none := by
  intro l
  induction l with
  | nil => intro _; rfl
  | cons x xs ih =>
    intro h
    rw [List.countP_cons] at h
    by_cases hx : p x
    · simp [hx] at h
    · rw [List.find?_cons_of_neg _ hx]
      exact ih (by simpa [hx] using h)

/-- Erasing the first match from a list holding at most one match leaves a
list with no match. -/
theorem find_eraseP_eq_none {α : Type} (p : α → Bool) (t : α) :
    ∀ l : List α, l.find? p = some t → l.countP p ≤ 1 →
      (l.eraseP p).find? p = none := by
  intro l
  induction l with
  | nil => intro hf; simp at hf
  | cons x xs ih =>
    intro hf hc
    rw [List.countP_cons] at hc
    by_cases hx : p x
    · rw [List.eraseP_cons_of_pos hx]
      simp [hx] at hc
      exact List.find?_eq_none.2 (fun a ha => by simp [hc a ha])
    · rw [List.eraseP_cons_of_neg hx, List.find?_cons_of_neg _ hx]
      rw [List.find?_cons_of_neg _ hx] at hf
      exact ih hf (by simpa [hx] using hc)

/-- C5: a stored single-use credential presented after its expiration time
has passed fails verification and is removed, so a subsequent presentation
of the same value also fails.  First conjunct: the email-confirmation code
in `VerifyConfirmEmailCode` (times are nonnegative Unix milliseconds).
Second conjunct: the 2FA token consumed by the `DeleteUser` handler, for a
store holding at most one token with the presented hash. -/
theorem C5_expired_code_fails_and_removed :
    (∀ (st : ServiceState) (now now2 : Int) (email code : String) (u : SUser)
        (ec : EmailCode),
      st.users email = some u → u.emailCode = some ec → ec.code = code →
      ec.expirationTime < now → 0 ≤ now → 0 ≤ now2 →
      (VerifyConfirmEmailCode st now email code).1 = false ∧
      (((VerifyConfirmEmailCode st now email code).2.users email).bind
        SUser.emailCode = none) ∧
      (VerifyConfirmEmailCode (VerifyConfirmEmailCode st now email code).2
        now2 email code).1 = false) ∧
    (∀ (st : HState) (now now2 : Int) (uid : Nat) (password code : String)
        (u : HUser) (t : TwoFAToken),
      st.users uid = some u → bcryptCheck u.passwordHash password = true →
      GetTwoFATokenByCode u code = some t → t.expirationTime < now →
      u.twoFATokens.countP (tokenMatches code) ≤ 1 →
      (DeleteUser st now uid password code).1 =
        DeleteUserResult.forbiddenInvalidCredentials ∧
      ((DeleteUser st now uid password code).2.users uid).map
        (fun u2 => GetTwoFATokenByCode u2 code) = some none ∧
      (DeleteUser (DeleteUser st now uid password code).2 now2 uid password code).1 =
        DeleteUserResult.forbiddenInvalidCredentials) := by
  constructor
  · intro st now now2 email code u ec hu hec hcode hexp h0 h02
    have h1 : VerifyConfirmEmailCode st now email code =
        (false, st.setUser email { u with emailConfirmed := u.emailConfirmed, emailCode := none }) := by
      simp [VerifyConfirmEmailCode, hu, hec, hcode,
        decide_eq_false (not_lt.2 (le_of_lt hexp))]
    refine ⟨by rw [h1], ?_, ?_⟩
    · rw [h1]
      simp [ServiceState.setUser]
    · rw [h1]
      by_cases hc0 : ("" : String) = code
      · simp [VerifyConfirmEmailCode, ServiceState.setUser, hc0,
          decide_eq_false (not_lt.2 h02)]
      · simp [VerifyConfirmEmailCode, ServiceState.setUser, hc0]
  · intro st now now2 uid password code u t hu hpw hft hexp hcnt
    have hfind : u.twoFATokens.find? (tokenMatches code) = some t := hft
    have hnone : ((u.deleteTwoFAToken code).twoFATokens).find? (tokenMatches code) = none :=
      find_eraseP_eq_none (tokenMatches code) t u.twoFATokens hfind hcnt
    have h1 : DeleteUser st now uid password code =
        (DeleteUserResult.forbiddenInvalidCredentials,
          st.setUser uid (u.deleteTwoFAToken code)) := by
      simp [DeleteUser, hu, hpw, hft, hexp]
    refine ⟨by rw [h1], ?_, ?_⟩
    · rw [h1]
      simp [ServiceState.setUser, HState.setUser, GetTwoFATokenByCode, hnone]
    · rw [h1]
      have hu2 : (st.setUser uid (u.deleteTwoFAToken code)).users uid =
          some (u.deleteTwoFAToken code) := by
        simp [HState.setUser]
      have hpw2 : bcryptCheck (u.deleteTwoFAToken code).passwordHash password = true := hpw
      simp [DeleteUser, hu2, hpw2, GetTwoFATokenByCode, hnone]

/-- Witness: on the concrete stores, presenting the matching expired email
code `ABC123` at time 2000 fails and removes it, and presenting the
matching expired 2FA token `T64` fails, removes it, and fails again on the
repeat. -/
theorem C5_witness :
    ((VerifyConfirmEmailCode stA 2000 "a@x.com" "ABC123").1 = false ∧
      (((VerifyConfirmEmailCode stA 2000 "a@x.com" "ABC123").2.users "a@x.com").bind
        SUser.emailCode = none) ∧
      (VerifyConfirmEmailCode (VerifyConfirmEmailCode stA 2000 "a@x.com" "ABC123").2
        2001 "a@x.com" "ABC123").1 = false) ∧
    ((DeleteUser hstA 100 1 "pw1" "T64").1 =
        DeleteUserResult.forbiddenInvalidCredentials ∧
      ((DeleteUser hstA 100 1 "pw1" "T64").2.users 1).map
        (fun u2 => GetTwoFATokenByCode u2 "T64") = some none ∧
      (DeleteUser (DeleteUser hstA 100 1 "pw1" "T64").2 101 1 "pw1" "T64").1 =
        DeleteUserResult.forbiddenInvalidCredentials) :=
  ⟨C5_expired_code_fails_and_removed.1 stA 2000 2001 "a@x.com" "ABC123" uA
      { code := "ABC123", expirationTime := 1000 } rfl rfl rfl (by decide) (by decide)
      (by decide),
   C5_expired_code_fails_and_removed.2 hstA 100 101 1 "pw1" "T64" hA tExp rfl
      (by decide) (by decide) (by decide) (by decide)⟩

/-- Wrapping is the identity on values already in the 64-bit range. -/
theorem wrap64_eq_self {x : Int} (h1 : -(2 ^ 63) ≤ x) (h2 : x < 2 ^ 63) :
    wrap64 x = x := by
  have hpow : (2 : Int) ^ 64 = 2 ^ 63 + 2 ^ 63 := by norm_num
  unfold wrap64
  rw [Int.emod_eq_of_lt (by linarith) (by linarith [hpow])]
  ring

/-- C9, counterexample: at the representable amount `-2^63` (Go
`MinInt64`) the sender balance difference the program stores is the
wrapped value `-2^63`, not `-amount = 2^63` — refuting the exact
equalities of the claim, which overflow of Go's fixed-width `int`
arithmetic violates. -/
theorem C9_counterexample :
    (CreateTransactionFromPaymentPlan gstA 1 false true 5 9 "loan" "big"
        (-(2 ^ 63)) 0).transactionLog.map TransactionLogEntry.balanceDifferenceSender =
      [-(2 ^ 63)] ∧
    ((-(2 ^ 63) : Int) ≠ -(-(2 ^ 63) : Int)) := by
  refine ⟨?_, by decide⟩
  simp [CreateTransactionFromPaymentPlan, GetUserBalance,
    GetLastTransactionLogEntry, gstA, wrap64]

/-- C9 amended: every transaction appended by
`CreateTransactionFromPaymentPlan` records, in wrapping 64-bit `int`
arithmetic, a sender balance difference of `-amount` (exactly `-amount`
whenever that is representable) and a receiver balance difference of
`amount` stored verbatim; a non-bank participant gets its prior balance
(`GetUserBalance`: the new-balance field of its most recent log entry in
the group, or 0 without one) decreased resp. increased by `amount`, wrapped
(exact whenever the result is representable), while a bank participant
gets a new-balance field of 0 and the zero UUID as id. -/
theorem C9_create_transaction_fields
    (st : GroupState) (g : Nat) (sib rib : Bool) (sender receiver : Nat)
    (title description : String) (amount : Int) (ppid : Nat) :
    ∃ e, (CreateTransactionFromPaymentPlan st g sib rib sender receiver
        title description amount ppid).transactionLog = st.transactionLog ++ [e] ∧
      e.balanceDifferenceSender = wrap64 (-amount) ∧
      e.balanceDifferenceReceiver = amount ∧
      (int64Representable (-amount) → e.balanceDifferenceSender = -amount) ∧
      (sib = false → e.senderId = sender ∧
        e.newBalanceSender = wrap64 (GetUserBalance st g sender - amount) ∧
        (int64Representable (GetUserBalance st g sender - amount) →
          e.newBalanceSender = GetUserBalance st g sender - amount)) ∧
      (sib = true → e.senderId = 0 ∧ e.newBalanceSender = 0) ∧
      (rib = false → e.receiverId = receiver ∧
        e.newBalanceReceiver = wrap64 (GetUserBalance st g receiver + amount) ∧
        (int64Representable (GetUserBalance st g receiver + amount) →
          e.newBalanceReceiver = GetUserBalance st g receiver + amount)) ∧
      (rib = true → e.receiverId = 0 ∧ e.newBalanceReceiver = 0) := by
  refine ⟨_, rfl, rfl, rfl, fun h => wrap64_eq_self h.1 h.2, ?_, ?_, ?_, ?_⟩ <;>
    intro h <;> subst h
  · exact ⟨rfl, rfl, fun hr => wrap64_eq_self hr.1 hr.2⟩
  · exact ⟨rfl, rfl⟩
  · exact ⟨rfl, rfl, fun hr => wrap64_eq_self hr.1 hr.2⟩
  · exact ⟨rfl, rfl⟩

/-- Witness: a concrete non-bank-to-bank transaction of amount 3 in the
concrete group store `gstA`, small enough that the wrapped values equal
the exact ones. -/
theorem C9_witness :
    ∃ e, (CreateTransactionFromPaymentPlan gstA 1 false true 5 9
        "rent" "october" 3 0).transactionLog = gstA.transactionLog ++ [e] ∧
      e.balanceDifferenceSender = -3 ∧
      e.balanceDifferenceReceiver = 3 ∧
      (e.senderId = 5 ∧ e.newBalanceSender = GetUserBalance gstA 1 5 - 3) ∧
      (e.receiverId = 0 ∧ e.newBalanceReceiver = 0) := by
  obtain ⟨e, h1, h2, h3, h4, h5, h6, h7, h8⟩ :=
    C9_create_transaction_fields gstA 1 false true 5 9 "rent" "october" 3 0
  refine ⟨e, h1, ?_, h3, ⟨(h5 rfl).1, (h5 rfl).2.2 (by decide)⟩, h8 rfl⟩
  rw [h4 (by decide)]

/-- The first element matching the predicate belongs to the replaced list
through its image under the replacement function. -/
theorem mem_replaceFirst {α : Type} (p : α → Bool) (f : α → α) (m : α) :
    ∀ l : List α, l.find? p = some m → f m ∈ replaceFirst p f l := by
  intro l
  induction l with
  | nil => intro hf; simp at hf
  | cons x xs ih =>
    intro hf
    by_cases hx : p x
    · rw [List.find?_cons_of_pos _ hx] at hf
      injection hf with hf
      subst hf
      simp [replaceFirst, hx]
    · rw [List.find?_cons_of_neg _ hx] at hf
      simp only [replaceFirst, if_neg hx]
      exact List.mem_cons_of_mem x (ih hf)

/-- Replacing the first match by an image that still matches keeps it the
first match. -/
theorem find_replaceFirst {α : Type} (p : α → Bool) (f : α → α) (m : α)
    (hp : p (f m) = true) :
    ∀ l : List α, l.find? p = some m →
      (replaceFirst p f l).find? p = some (f m) := by
  intro l
  induction l with
  | nil => intro hf; simp at hf
  | cons x xs ih =>
    intro hf
    by_cases hx : p x
    · rw [List.find?_cons_of_pos _ hx] at hf
      injection hf with hf
      subst hf
      simp only [replaceFirst, if_pos hx]
      exact List.find?_cons_of_pos _ hp
    · rw [List.find?_cons_of_neg _ hx] at hf
      simp only [replaceFirst, if_neg hx]
      rw [List.find?_cons_of_neg _ hx]
      exact ih hf

/-- Erasing the first element matching `p` does not change `any q` when
that element fails `q`. -/
theorem any_eraseP_of_not {α : Type} (p q : α → Bool) (m : α) (hq : q m = false) :
    ∀ l : List α, l.find? p = some m → (l.eraseP p).any q = l.any q := by
  intro l
  induction l with
  | nil => intro hf; simp at hf
  | cons x xs ih =>
    intro hf
    by_cases hx : p x
    · rw [List.find?_cons_of_pos _ hx] at hf
      injection hf with hf
      subst hf
      rw [List.eraseP_cons_of_pos hx, List.any_cons, hq]
      simp
    · rw [List.find?_cons_of_neg _ hx] at hf
      rw [List.eraseP_cons_of_neg hx, List.any_cons, List.any_cons, ih hf]

/-- C10: `RemoveMember` on an existing membership row never changes the
admin status — an admin row is kept with only the member flag cleared (so
`IsAdmin` stays true on that row), a non-admin row is deleted, and in both
cases `IsAdmin` returns the same value after the call as before it. -/
theorem C10_remove_member_preserves_admin
    (st : GroupState) (g u : Nat) (m : GroupMembership)
    (hm : findMembership st g u = some m) :
    ∃ st', RemoveMember st g u = some st' ∧
      IsAdmin st' g u = IsAdmin st g u ∧
      (m.isAdmin = true →
        st'.memberships = replaceFirst (membershipKey g u)
          (fun mm => { mm with isMember := false }) st.memberships ∧
        findMembership st' g u = some { m with isMember := false }) ∧
      (m.isAdmin = false →
        st'.memberships = st.memberships.eraseP (membershipKey g u)) := by
  simp only [findMembership] at hm
  have hpm : membershipKey g u m = true := List.find?_some hm
  have hpm2 : membershipKey g u { m with isMember := false } = true := hpm
  by_cases ha : m.isAdmin = true
  · refine ⟨{ st with
        paymentPlans := st.paymentPlans.filter
          (fun p => !(p.groupId = g && (p.senderId = u || p.receiverId = u))),
        memberships := replaceFirst (membershipKey g u)
          (fun mm => { mm with isMember := false }) st.memberships }, ?_, ?_, ?_, ?_⟩
    · simp [RemoveMember, findMembership, hm, ha]
    · simp only [IsAdmin]
      have h1 : st.memberships.any (fun mm => membershipKey g u mm && mm.isAdmin) = true :=
        List.any_eq_true.2 ⟨m, List.mem_of_find?_eq_some hm, by simp [hpm, ha]⟩
      have h2 : (replaceFirst (membershipKey g u)
          (fun mm => { mm with isMember := false }) st.memberships).any
          (fun mm => membershipKey g u mm && mm.isAdmin) = true :=
        List.any_eq_true.2 ⟨{ m with isMember := false },
          mem_replaceFirst (membershipKey g u) _ m st.memberships hm,
          by simp only [Bool.and_eq_true]; exact ⟨hpm2, ha⟩⟩
      rw [h1, h2]
    · intro _
      refine ⟨rfl, ?_⟩
      simp only [findMembership]
      exact find_replaceFirst (membershipKey g u) _ m hpm2 st.memberships hm
    · intro hna
      rw [ha] at hna
      cases hna
  · have ha' : m.isAdmin = false := by
      cases hb : m.isAdmin
      · rfl
      · exact absurd hb ha
    refine ⟨{ st with
        paymentPlans := st.paymentPlans.filter
          (fun p => !(p.groupId = g && (p.senderId = u || p.receiverId = u))),
        memberships := st.memberships.eraseP (membershipKey g u) }, ?_, ?_, ?_, ?_⟩
    · simp [RemoveMember, findMembership, hm, ha']
    · simp only [IsAdmin]
      exact any_eraseP_of_not (membershipKey g u) _ m (by simp [ha']) st.memberships hm
    · intro hb
      rw [ha'] at hb
      cases hb
    · intro _
      rfl

/-- Witness: removing the admin member `memA` and the plain member `memB`
from the concrete group store `gstA` both keep `IsAdmin` unchanged, the
admin row surviving with only its member flag cleared. -/
theorem C10_witness :
    (∃ st', RemoveMember gstA 1 2 = some st' ∧
      IsAdmin st' 1 2 = IsAdmin gstA 1 2 ∧
      findMembership st' 1 2 = some { memA with isMember := false }) ∧
    (∃ st', RemoveMember gstA 1 3 = some st' ∧
      IsAdmin st' 1 3 = IsAdmin gstA 1 3 ∧
      st'.memberships = gstA.memberships.eraseP (membershipKey 1 3)) := by
  constructor
  · obtain ⟨st', h1, h2, h3, _⟩ :=
      C10_remove_member_preserves_admin gstA 1 2 memA (by decide)
    exact ⟨st', h1, h2, (h3 rfl).2⟩
  · obtain ⟨st', h1, h2, _, h4⟩ :=
      C10_remove_member_preserves_admin gstA 1 3 memB (by decide)
    exact ⟨st', h1, h2, h4 rfl⟩

end HBank
